import Mathlib

/-!
Verification development for the col command-line argument resolver.

The repository contains two iterations of the same design:

- include/col/command.h : the final engine.  A command node (Cmd or SubCmd)
  holds an ordered tuple of child subcommands and an ordered tuple of
  options (Arg).  Cmd::parse / SubCmd::parse run a match/consume loop over
  a token cursor, recursively dispatch a matching subcommand token, fill
  unset slots with defaults and build the result.  Errors live in the
  closed variant col::ParseError.
- include/col/arg_parser.h : an earlier iteration (ArgParser over
  FlagConfig / OptionConfig) with its own error variant col::err::ParserError.

Both engines are embedded below.  The command.h engine is modelled as one
recursive node type CmdNode (Cmd and SubCmd share the same resolution
algorithm; a node without children behaves as the non-variant
specialisation).  C++ template-level types are represented by the small
value universe Val (bool / int / string cover every concretely used
instantiation in the repository), and the statically-typed default and
parser members of Arg<T, D, P> become the explicit data DefaultSpec and
ParserSpec.  The main loop is defined structurally on an explicit fuel
argument so that all definitions compute by kernel reduction; fuel
adequacy (one unit per consumed token suffices) is proved below.
-/

namespace Col

/-- Mirrors col::InternalLogicErrorKind (command.h). -/
inductive InternalLogicErrorKind where
| invalidFunctionReturnType
deriving DecidableEq, Repr

/-- Mirrors col::InvalidConfigKind (command.h). -/
inductive InvalidConfigKind where
| emptyDefault
| emptyParser
deriving DecidableEq, Repr

/-- Reason of a numeric conversion failure, modelling the std::errc value
stored in col::InvalidNumber.  The embedding uses unbounded integers, so
only invalidArgument is ever produced; resultOutOfRange is kept so the
error shape matches the source struct. -/
inductive NumErr where
| invalidArgument
| resultOutOfRange
deriving DecidableEq, Repr

/-- Mirrors the closed variant col::ParseError (command.h lines 118-132),
one constructor per alternative, with the same payloads. -/
inductive ParseError where
| unknownError
| internalLogicError (name : String) (kind : InternalLogicErrorKind)
| unknownOption (arg : String)
| showHelp
| duplicateArg (name : String)
| noValueGivenForOption (name : String)
| converterConvertionError (name : String) (arg : String)
| defaultGenerationError (name : String)
| invalidNumber (name : String) (arg : String) (err : NumErr)
| notEnoughArgument (index : Nat) (name : String)
| invalidConfiguration (name : String) (kind : InvalidConfigKind)
| requiredOption (name : String)
deriving DecidableEq, Repr

/-- Value universe for option values: every Arg instantiation used in the
repository has value type bool, an integral type, or a string type. -/
inductive Val where
| bool (b : Bool)
| int (n : Int)
| str (s : String)
deriving DecidableEq, Repr

/-- The declared value type T of an Arg, at the data level. -/
inductive VType where
| bool
| int
| str
deriving DecidableEq, Repr

/-- Default construction T{} used by the default filler when no default
was declared (value.emplace() in command.h): all modelled value types are
default constructible. -/
def zeroVal : VType → Val
| .bool => .bool false
| .int => .int 0
| .str => .str ""

/-- The default member D of Arg<T, D, P>: blank (none declared), a plain
constant, or a zero-argument generator returning a plain value, an
optional, an expected whose error converts to ParseError, an expected
with a foreign error type, or an unusable type (the InternalLogicError
branch of the default filler). -/
inductive DefaultSpec where
| blank
| const (v : Val)
| genPlain (f : Unit → Val)
| genOpt (f : Unit → Option Val)
| genExc (f : Unit → Except ParseError Val)
| genExcForeign (f : Unit → Except Unit Val)
| genOther

/-- The parser member P of Arg<T, D, P>: blank (fall back to conversion
from the raw token), or a callable returning a plain value, an optional,
or an expected. -/
inductive ParserSpec where
| blank
| plain (f : String → Val)
| opt (f : String → Option Val)
| exc (f : String → Except ParseError Val)

/-- Mirrors col::Arg<T, D, P> (command.h) after the value type has been
fixed: its name, its value type, its default and its parser. -/
structure Arg where
  name : String
  vtype : VType
  dflt : DefaultSpec
  parser : ParserSpec

/-- An Arg as first written by the user, before Cmd::add / SubCmd::add:
the value type may still be blank (vtypeOpt = none models T = blank). -/
structure RawArg where
  name : String
  vtypeOpt : Option VType
  dflt : DefaultSpec
  parser : ParserSpec

/-- Value of one digit character in the given base, as std::from_chars
accepts them (0-9, a-f, A-F, bounded by the base). -/
def digitVal (base : Nat) (c : Char) : Option Nat :=
  let d : Option Nat :=
    if '0' ≤ c ∧ c ≤ '9' then some (c.toNat - 48)
    else if 'a' ≤ c ∧ c ≤ 'f' then some (c.toNat - 87)
    else if 'A' ≤ c ∧ c ≤ 'F' then some (c.toNat - 55)
    else none
  match d with
  | some v => if v < base then some v else none
  | none => none

/-- Accumulating digit run: fails on the first non-digit character. -/
def digitsToNatAux (base : Nat) : List Char → Nat → Option Nat
| [], acc => some acc
| c :: cs, acc =>
  match digitVal base c with
  | some d => digitsToNatAux base cs (acc * base + d)
  | none => none

/-- Whole-string digit parse (nonempty, every character a digit),
modelling the full-consumption check of col::integral_from_string. -/
def digitsToNat (base : Nat) (cs : List Char) : Option Nat :=
  match cs with
  | [] => none
  | _ => digitsToNatAux base cs 0

/-- std::from_chars for a signed integer in the given base over the whole
string: optional leading minus sign, then a nonempty digit run.
Integers are unbounded in the model, so out-of-range never occurs. -/
def fromCharsInt (base : Nat) (cs : List Char) : Option Int :=
  match cs with
  | '-' :: rest => (digitsToNat base rest).map (fun n => -(n : Int))
  | _ => (digitsToNat base cs).map (fun n => (n : Int))

/-- Mirrors col::integral_from_string (from_string.h): a 0x prefix
selects base 16, otherwise base 10, and the remaining string must be
consumed entirely. -/
def integralFromString (s : String) : Option Int :=
  match s.data with
  | '0' :: 'x' :: rest => fromCharsInt 16 rest
  | cs => fromCharsInt 10 cs

/-- The non-invocable-parser branch of Arg::parse: conversion from the
raw character pointer for string-typed options, col::number_from_string
for numeric options.  The bool case is unreachable because flag options
never take the value-consuming path. -/
def Arg.convertFallback (a : Arg) (t : String) : Except ParseError Val :=
  match a.vtype with
  | .str => .ok (.str t)
  | .int =>
    match integralFromString t with
    | some n => .ok (.int n)
    | none => .error (.invalidNumber a.name t NumErr.invalidArgument)
  | .bool => .error (.internalLogicError a.name .invalidFunctionReturnType)

/-- The value-consuming arm of Arg::parse (command.h lines 466-543): an
exhausted cursor fails with NoValueGivenForOption; otherwise exactly one
token is consumed and handed to the parser (plain / optional / expected),
or to the fallback conversion when no parser was declared. -/
def Arg.parseValueArm (a : Arg) (toks : List String) : Except ParseError (Val × List String) :=
  match toks with
  | [] => .error (.noValueGivenForOption a.name)
  | t :: rest =>
    match a.parser with
    | .plain f => .ok (f t, rest)
    | .opt f =>
      match f t with
      | some v => .ok (v, rest)
      | none => .error (.converterConvertionError a.name t)
    | .exc f =>
      match f t with
      | .ok v => .ok (v, rest)
      | .error e => .error e
    | .blank =>
      match a.convertFallback t with
      | .ok v => .ok (v, rest)
      | .error e => .error e

/-- Mirrors Arg::parse (command.h lines 452-543).  For a bool-typed
option no token is consumed: with an explicitly declared bool constant
default the negated default is returned, otherwise true.  Any other
value type takes the value-consuming arm.  The returned list is the
remaining cursor. -/
def Arg.parse (a : Arg) (toks : List String) : Except ParseError (Val × List String) :=
  match a.vtype with
  | .bool =>
    match a.dflt with
    | .const (Val.bool b) => .ok (Val.bool !b, toks)
    | _ => .ok (Val.bool true, toks)
  | .int => a.parseValueArm toks
  | .str => a.parseValueArm toks

/-- One slot of the default filler (the tuple_try_foreach body after the
matching loop in command.h): an already-set slot is kept; otherwise a
blank default default-constructs the value, a constant is used directly,
and a generator is invoked with its optional / expected result unwrapped. -/
def Arg.fill (a : Arg) (slot : Option Val) : Except ParseError Val :=
  match slot with
  | some v => .ok v
  | none =>
    match a.dflt with
    | .blank => .ok (zeroVal a.vtype)
    | .const v => .ok v
    | .genPlain f => .ok (f ())
    | .genOpt f =>
      match f () with
      | some v => .ok v
      | none => .error (.defaultGenerationError a.name)
    | .genExc f =>
      match f () with
      | .ok v => .ok v
      | .error e => .error e
    | .genExcForeign f =>
      match f () with
      | .ok v => .ok v
      | .error _ => .error (.defaultGenerationError a.name)
    | .genOther => .error (.internalLogicError a.name .invalidFunctionReturnType)

/-- Default filler over the zipped option/slot lists, in declaration
order, aborting at the first error. -/
def fillAll : List Arg → List (Option Val) → Except ParseError (List Val)
| a :: as, s :: ss =>
  (match a.fill s with
  | .error e => .error e
  | .ok v =>
    match fillAll as ss with
    | .error e => .error e
    | .ok vs => .ok (v :: vs))
| _, _ => .ok []

/-- A command node: Cmd and SubCmd share this shape (name, ordered child
subcommands, ordered options) and the same resolution algorithm. -/
inductive CmdNode where
| mk (name : String) (subs : List CmdNode) (args : List Arg)

/-- Name of a command node. -/
def CmdNode.name : CmdNode → String
| .mk n _ _ => n

/-- Child subcommands of a command node, in declaration order. -/
def CmdNode.subs : CmdNode → List CmdNode
| .mk _ s _ => s

/-- Options of a command node, in declaration order. -/
def CmdNode.args : CmdNode → List Arg
| .mk _ _ a => a

/-- The result a node's build step produces: the subcommand selection
(the std::variant with std::monostate at index 0 modelled as an Option,
none being the monostate tag and some (i, out) alternative i + 1 holding
child i's result) and the option values in declaration order. -/
inductive ParseOut where
| mk (sub : Option (Nat × ParseOut)) (vals : List Val)

/-- Subcommand-selection component of a result. -/
def ParseOut.sub : ParseOut → Option (Nat × ParseOut)
| .mk s _ => s

/-- Option values of a result, in declaration order. -/
def ParseOut.vals : ParseOut → List Val
| .mk _ v => v

/-- First element with the given name, with its index: models
tuple_try_foreach trying candidates in declaration order, first exact
match wins. -/
def findNamed {α : Type} (nameOf : α → String) : List α → String → Option (Nat × α)
| [], _ => none
| x :: xs, t =>
  if nameOf x = t then some (0, x)
  else
    match findNamed nameOf xs t with
    | some (i, y) => some (i + 1, y)
    | none => none

/-- Fresh slot table: one unset cell per option. -/
def initSlots (args : List Arg) : List (Option Val) :=
  args.map fun _ => none

/-- State returned by the matching loop: the optional selection cell
(outer none: the cell was never set; some none: monostate emplaced;
some (some (i, out)): child i selected), the slot table, and the
remaining cursor. -/
abbrev LoopState := Option (Option (Nat × ParseOut)) × List (Option Val) × List String

/-- Outcome of running engine code that contains one undefined-behavior
path: either a defined result, or the marker that the null dereference
in ControlFlow::to_break (control_flow.h lines 126-141, a dereference of
std::get_if over the wrong alternative) was reached, after which the
source has no defined result. -/
inductive EngineRes (α : Type) where
| ub
| res (r : Except ParseError α)

/-- Applies a post-processing step to a defined result; undefined
behavior stays undefined behavior. -/
def EngineRes.lift {α β : Type} (f : Except ParseError α → Except ParseError β) : EngineRes α → EngineRes β
| .ub => .ub
| .res r => .res (f r)

/-- Post-loop steps of Cmd::parse / SubCmd::parse: the leftover-token
check (command.h lines 1533-1540), the monostate emplacement for an
unset selection cell (lines 1542-1545), the default filler, and the
final build. -/
def finishNode (node : CmdNode) : Except ParseError LoopState → Except ParseError ParseOut
| .error e => .error e
| .ok (cell, slots, rem) =>
  match rem with
  | t :: _ => .error (.unknownOption t)
  | [] =>
    match fillAll node.args slots with
    | .error e => .error e
    | .ok vals =>
      .ok (.mk (match cell with
        | none => none
        | some s => s) vals)

/-- The matching loop of Cmd::parse / SubCmd::parse, structurally
recursive on fuel.  Each iteration first tries the child subcommands
(declaration order): on a name match the token is consumed and the child
resolves the rest of the cursor, a child error is returned immediately,
and a child success sets the selection cell and breaks out of the loop
(the child's own loop runs to its sentinel, so nothing remains).
Otherwise the options are tried (declaration order): on a name match the
token is consumed, Arg::parse resolves the value and the slot is
overwritten unconditionally (the source performs no already-set check
here).  A token matching nothing is handled differently by the two
templates: the subcommand-bearing specializations check is_break first
and return UnknownOption cleanly (command.h lines 1507-1529 and
944-966), but the childless templates evaluate res.to_break() — a
dereference of the null std::get_if over the Break alternative of a
Continue-holding ControlFlow — before consulting is_continue (command.h
lines 1210 and 668, control_flow.h lines 130-133), which is undefined
behavior, modelled by the ub outcome.  A node has children exactly when
the subcommand-bearing template is selected, so the dichotomy is decided
by the subs list.  The fuel result none means the fuel ran out; fuel
exceeding the token count never runs out (proved below). -/
def loopF : Nat → CmdNode → List (Option Val) → List String → Option (EngineRes LoopState)
| 0, _, _, _ => none
| _ + 1, _, slots, [] => some (.res (.ok (none, slots, [])))
| fuel + 1, node, slots, t :: rest =>
  match findNamed CmdNode.name node.subs t with
  | some (i, child) =>
    match (loopF fuel child (initSlots child.args) rest).map (EngineRes.lift (finishNode child)) with
    | none => none
    | some .ub => some .ub
    | some (.res (.error e)) => some (.res (.error e))
    | some (.res (.ok out)) => some (.res (.ok (some (some (i, out)), slots, [])))
  | none =>
    match findNamed Arg.name node.args t with
    | some (j, a) =>
      match a.parse rest with
      | .error e => some (.res (.error e))
      | .ok (v, rest') => loopF fuel node (slots.set j (some v)) rest'
    | none =>
      match node.subs with
      | _ :: _ => some (.res (.error (.unknownOption t)))
      | [] => some .ub

/-- Full resolution of one node with explicit fuel. -/
def parseNodeF (fuel : Nat) (node : CmdNode) (toks : List String) : Option (EngineRes ParseOut) :=
  (loopF fuel node (initSlots node.args) toks).map (EngineRes.lift (finishNode node))

/-- Cmd::parse / SubCmd::parse: resolution of a node over a token list,
yielding a defined result or the undefined-behavior marker.  Fuel one
beyond the token count suffices (proved below), so the fallback branch
is unreachable. -/
def parseNode (node : CmdNode) (toks : List String) : EngineRes ParseOut :=
  (parseNodeF (toks.length + 1) node toks).getD (.res (.error .unknownError))

/-- Mirrors Cmd::add / SubCmd::add for an option (command.h lines
1124-1142 and 596-614): an Arg whose value type is still blank is
converted to a bool option via set_value_type, any other Arg is appended
unchanged. -/
def CmdNode.add (node : CmdNode) (r : RawArg) : CmdNode :=
  match r.vtypeOpt with
  | none => .mk node.name node.subs (node.args ++ [Arg.mk r.name VType.bool r.dflt r.parser])
  | some vt => .mk node.name node.subs (node.args ++ [Arg.mk r.name vt r.dflt r.parser])

/-- Mirrors Cmd::add / SubCmd::add for a subcommand: the child is
appended to the subcommand tuple. -/
def CmdNode.addSub (node : CmdNode) (child : CmdNode) : CmdNode :=
  .mk node.name (node.subs ++ [child]) node.args

namespace Err

/-- Mirrors the closed variant col::err::ParserError (arg_parser.h lines
73-84), one constructor per alternative, with the same payloads. -/
inductive ParserError where
| internalErr
| argumentConversionErr (configName : String) (expectedType : String) (givenStr : String) (message : String)
| valueOutOfRangeErr (configName : String) (expectedType : String) (givenStr : String)
| nullValueParserErr (configName : String)
| noValueGivenErr (configName : String) (optionName : String)
| duplicateSelctionErr (configName : String) (printableCurrentValue : Option String)
| unknownOption (value : String)
| unparsedArgument (value : String)
| notEnoughArguments (requiredOptions : List String)
deriving DecidableEq, Repr

end Err

/-- A configuration of the earlier ArgParser iteration: col::FlagConfig
(a bool option whose default value member always exists, initialised to
false) or col::OptionConfig<T, F> (a value option with a required flag,
an optional default, and a converter returning expected<T, string>; a
converter returning a plain T is the always-ok case).  The model covers
non-optional value types, for which the initialised check of
ArgParser::parse reduces to slot-is-set and never consults required;
null function-pointer converters are not representable. -/
inductive Config where
| flagConfig (name : String) (defaultValue : Bool)
| optionConfig (name : String) (vtype : VType) (required : Bool) (defaultValue : Option Val) (converter : String → Except String Val)

/-- Name of a configuration. -/
def Config.name : Config → String
| .flagConfig n _ => n
| .optionConfig n _ _ _ _ => n

/-- The digit-prefix variant of std::from_chars used by OptionConfig's
built-in converter, which checks only the error code and not full
consumption: the longest digit prefix is converted, failing only when no
digit is present. -/
def digitsPrefixAux (base : Nat) : List Char → Nat → Nat
| [], acc => acc
| c :: cs, acc =>
  match digitVal base c with
  | some d => digitsPrefixAux base cs (acc * base + d)
  | none => acc

/-- Whether the character list starts with a digit of the base. -/
def hasDigitHead (base : Nat) (cs : List Char) : Bool :=
  match cs with
  | c :: _ => (digitVal base c).isSome
  | [] => false

/-- Prefix-parsing signed integer conversion (see digitsPrefixAux). -/
def fromCharsPrefixInt (base : Nat) (cs : List Char) : Option Int :=
  match cs with
  | '-' :: rest =>
    if hasDigitHead base rest then some (-(digitsPrefixAux base rest 0 : Int)) else none
  | _ =>
    if hasDigitHead base cs then some ((digitsPrefixAux base cs 0 : Int)) else none

/-- The built-in converter of OptionConfig for integral value types
(arg_parser.h lines 380-412): a 0x prefix selects base 16, a 0b prefix
base 2, otherwise base 10; only the error code of from_chars is
inspected.  Out-of-range cannot occur over unbounded integers. -/
def builtinIntConverter (s : String) : Except String Val :=
  let p : Nat × List Char :=
    match s.data with
    | '0' :: 'x' :: rest => (16, rest)
    | '0' :: 'b' :: rest => (2, rest)
    | cs => (10, cs)
  match fromCharsPrefixInt p.1 p.2 with
  | some n => .ok (.int n)
  | none => .error "invalid argument"

/-- The built-in converter of OptionConfig for string value types: the
raw pointer converts directly, always succeeding. -/
def builtinStrConverter (s : String) : Except String Val :=
  .ok (.str s)

/-- OptionConfig::call_converter (arg_parser.h lines 552-588): a
converter failure message is wrapped into ArgumentConversionErr with the
placeholder expected-type text used by the source. -/
def callConverter (name : String) (conv : String → Except String Val) (arg : String) : Except Err.ParserError Val :=
  match conv arg with
  | .ok v => .ok v
  | .error msg => .error (.argumentConversionErr name "<unknown type>" arg msg)

/-- One pass of detail::matches_configs_impl (arg_parser.h lines
694-756) over the configuration list, carrying the index of the current
configuration.  A flag match consumes the name token and sets its slot
to true unconditionally.  A value-option match consumes the name token,
fails with NoValueGivenErr on an exhausted cursor, runs the converter on
the next token, and only on conversion success checks the slot: an
already-set slot fails with DuplicateSelctionErr (carrying the printable
current value for string-typed options), otherwise the value token is
consumed and stored.  Returns none when no configuration name matched. -/
def matchConfigs (cfgs : List Config) (slots : List (Option Val)) (j : Nat) (t : String) (rest : List String) :
    Except Err.ParserError (Option (List (Option Val) × List String)) :=
  match cfgs with
  | [] => .ok none
  | c :: cs =>
    if c.name = t then
      match c with
      | .flagConfig _ _ => .ok (some (slots.set j (some (Val.bool true)), rest))
      | .optionConfig name vt _ _ conv =>
        match rest with
        | [] => .error (.noValueGivenErr name name)
        | v :: vrest =>
          match callConverter name conv v with
          | .error e => .error e
          | .ok value =>
            match slots.getD j none with
            | some cur =>
              .error (.duplicateSelctionErr name
                (if vt = VType.str then
                  match cur with
                  | .str s => some s
                  | _ => none
                else none))
            | none => .ok (some (slots.set j (some value), vrest))
    else
      matchConfigs cs slots (j + 1) t rest

/-- The matching loop of ArgParser::parse (arg_parser.h lines 925-936),
structurally recursive on fuel: while tokens remain, the current token
must match some configuration or the parse fails with UnknownOption. -/
def apLoopF : Nat → List Config → List (Option Val) → List String → Option (Except Err.ParserError (List (Option Val)))
| 0, _, _, _ => none
| _ + 1, _, slots, [] => some (.ok slots)
| fuel + 1, cfgs, slots, t :: rest =>
  match matchConfigs cfgs slots 0 t rest with
  | .error e => some (.error e)
  | .ok none => some (.error (.unknownOption t))
  | .ok (some (slots', rem)) => apLoopF fuel cfgs slots' rem

/-- detail::set_default_if_defined: every still-unset slot receives its
configuration's default; a flag default always exists (false unless
changed), an option default is its optional member and may be absent. -/
def setDefaults : List Config → List (Option Val) → List (Option Val)
| c :: cs, s :: ss =>
  (match s with
  | some v => some v
  | none =>
    match c with
    | .flagConfig _ d => some (Val.bool d)
    | .optionConfig _ _ _ dflt _ => dflt) :: setDefaults cs ss
| _, _ => []

/-- The earlier parser iteration: col::ArgParser over its ordered
configuration tuple. -/
structure ArgParser where
  configs : List Config

/-- ArgParser::parse (arg_parser.h lines 917-944): the matching loop,
then default filling, then detail::check_args_tuple_initialized; when
some slot is still unset the parse fails with NotEnoughArguments whose
required-options list is left empty by the source (the comment there
marks it as temporary).  Fuel one beyond the token count suffices, so
the fallback branch is unreachable. -/
def ArgParser.parse (p : ArgParser) (toks : List String) : Except Err.ParserError (List Val) :=
  match apLoopF (toks.length + 1) p.configs (p.configs.map fun _ => none) toks with
  | none => .error .internalErr
  | some (.error e) => .error e
  | some (.ok slots) =>
    let filled := setDefaults p.configs slots
    if filled.all Option.isSome then
      .ok (filled.map fun s => s.getD (Val.bool false))
    else
      .error (.notEnoughArguments [])

/-! Concrete instances used by counterexamples and witnesses. -/

/-- A command node with a single string option and no subcommands (the
shape exercised by cmd_failure_test in tests/col/command_static_test.cpp). -/
def dupCmd : CmdNode := .mk "cmd" [] [Arg.mk "--str" VType.str DefaultSpec.blank ParserSpec.blank]

/-- The ArgParser counterpart of dupCmd: a single string option. -/
def dupAP : ArgParser := ⟨[Config.optionConfig "--str" VType.str false none builtinStrConverter]⟩

/-- An ArgParser with a single required int option and no default (the
shape exercised by the required-option test in tests/col/command_test.cpp). -/
def reqAP : ArgParser := ⟨[Config.optionConfig "--count" VType.int true none builtinIntConverter]⟩

/-- A command node with a single int option, no default, no subcommands. -/
def countCmd : CmdNode := .mk "cmd" [] [Arg.mk "--count" VType.int DefaultSpec.blank ParserSpec.blank]

/-- A command node with a single flag option and no subcommands. -/
def fooCmd : CmdNode := .mk "cmd" [] [Arg.mk "--foo" VType.bool DefaultSpec.blank ParserSpec.blank]

/-- A child subcommand with a single flag option. -/
def subChild : CmdNode := .mk "sub" [] [Arg.mk "--bar" VType.bool DefaultSpec.blank ParserSpec.blank]

/-- A command node with one child subcommand and one flag option. -/
def subParent : CmdNode := .mk "cmd" [subChild] [Arg.mk "--foo" VType.bool DefaultSpec.blank ParserSpec.blank]

/-- A flag option with an explicitly declared bool default of true. -/
def toggleArg : Arg := ⟨"--flag", VType.bool, DefaultSpec.const (Val.bool true), ParserSpec.blank⟩

/-- An optional-returning converter that always signals failure. -/
def convNone : String → Option Val := fun _ => none

/-- A value option whose declared converter is convNone. -/
def optArg : Arg := ⟨"--n", VType.int, DefaultSpec.blank, ParserSpec.opt convNone⟩

/-! Helper lemmas about the command.h engine. -/

/-- Arg::parse leaves the cursor untouched (flag arm) or consumes exactly
the one value token (value arm): the remaining cursor is the input or its
tail. -/
theorem Arg.parse_ok_rem (a : Arg) (toks : List String) (v : Val) (rem : List String)
    (h : a.parse toks = Except.ok (v, rem)) : rem = toks ∨ rem = toks.tail := by
  rcases a with ⟨nm, vt, df, ps⟩
  cases vt
  case bool =>
    left
    simp only [Arg.parse] at h
    repeat' split at h
    all_goals simp_all
  all_goals
    simp only [Arg.parse, Arg.parseValueArm] at h
    rcases toks with _ | ⟨t, rest⟩
    · exact absurd h (by simp)
    · right
      repeat' split at h
      all_goals simp_all

/-- Length form of Arg.parse_ok_rem. -/
theorem Arg.parse_ok_length (a : Arg) (toks : List String) (v : Val) (rem : List String)
    (h : a.parse toks = Except.ok (v, rem)) : rem.length ≤ toks.length := by
  rcases Arg.parse_ok_rem a toks v rem h with hr | hr
  · simp [hr]
  · subst hr
    cases toks <;> simp

/-- findNamed misses when no element bears the name. -/
theorem findNamed_eq_none {α : Type} (nameOf : α → String) (xs : List α) (t : String)
    (h : ∀ x ∈ xs, nameOf x ≠ t) : findNamed nameOf xs t = none := by
  induction xs with
  | nil => rfl
  | cons x xs ih =>
    simp only [findNamed]
    rw [if_neg (h x (List.mem_cons_self x xs))]
    rw [ih (fun y hy => h y (List.mem_cons_of_mem x hy))]

/-- findNamed returns the first element bearing the name, in declaration
order, together with its index. -/
theorem findNamed_append {α : Type} (nameOf : α → String) (pre post : List α) (c : α) (t : String)
    (hpre : ∀ x ∈ pre, nameOf x ≠ t) (hc : nameOf c = t) :
    findNamed nameOf (pre ++ c :: post) t = some (pre.length, c) := by
  induction pre with
  | nil => simp [findNamed, hc]
  | cons x xs ih =>
    simp only [List.cons_append, findNamed]
    rw [if_neg (hpre x (List.mem_cons_self x xs))]
    simp only [List.append_eq]
    rw [ih (fun y hy => hpre y (List.mem_cons_of_mem x hy))]
    simp [List.length_cons]

/-- The matching loop is insensitive to the exact fuel as long as it
exceeds the token count: every iteration consumes at least one token,
and a subcommand recursion starts on a strictly shorter cursor. -/
theorem loopF_fuel_irrel : ∀ (f1 f2 : Nat) (node : CmdNode) (slots : List (Option Val)) (toks : List String),
    toks.length < f1 → toks.length < f2 →
    loopF f1 node slots toks = loopF f2 node slots toks := by
  intro f1
  induction f1 with
  | zero => intro f2 node slots toks h1 _; omega
  | succ n ih =>
    intro f2 node slots toks h1 h2
    match f2, h2 with
    | m + 1, h2 =>
      match toks with
      | [] => rfl
      | t :: rest =>
        have hr1 : rest.length < n := by simp [List.length_cons] at h1; omega
        have hr2 : rest.length < m := by simp [List.length_cons] at h2; omega
        simp only [loopF]
        cases hfs : findNamed CmdNode.name node.subs t with
        | some ic =>
          obtain ⟨i, child⟩ := ic
          dsimp only
          rw [ih m child (initSlots child.args) rest hr1 hr2]
        | none =>
          dsimp only
          cases hfa : findNamed Arg.name node.args t with
          | some ja =>
            obtain ⟨j, a⟩ := ja
            dsimp only
            cases hp : a.parse rest with
            | error e => rfl
            | ok vr =>
              obtain ⟨v, rest'⟩ := vr
              dsimp only
              have hle := Arg.parse_ok_length a rest v rest' hp
              exact ih m node (slots.set j (some v)) rest' (by omega) (by omega)
          | none => rfl

/-- With fuel exceeding the token count, the matching loop never runs
out of fuel. -/
theorem loopF_isSome : ∀ (f : Nat) (node : CmdNode) (slots : List (Option Val)) (toks : List String),
    toks.length < f → (loopF f node slots toks).isSome := by
  intro f
  induction f with
  | zero => intro node slots toks h; omega
  | succ n ih =>
    intro node slots toks h
    match toks with
    | [] => rfl
    | t :: rest =>
      have hr : rest.length < n := by simp [List.length_cons] at h; omega
      simp only [loopF]
      cases hfs : findNamed CmdNode.name node.subs t with
      | some ic =>
        obtain ⟨i, child⟩ := ic
        have hs := ih child (initSlots child.args) rest hr
        cases hc : loopF n child (initSlots child.args) rest with
        | none => rw [hc] at hs; simp at hs
        | some er =>
          cases er with
          | ub => simp [hc, EngineRes.lift]
          | res r =>
            cases hfin : finishNode child r with
            | error e => simp [hc, hfin, EngineRes.lift]
            | ok out => simp [hc, hfin, EngineRes.lift]
      | none =>
        dsimp only
        cases hfa : findNamed Arg.name node.args t with
        | some ja =>
          obtain ⟨j, a⟩ := ja
          dsimp only
          cases hp : a.parse rest with
          | error e => simp
          | ok vr =>
            obtain ⟨v, rest'⟩ := vr
            dsimp only
            have hle := Arg.parse_ok_length a rest v rest' hp
            exact ih node (slots.set j (some v)) rest' (by omega)
        | none => cases node.subs <;> simp

/-- parseNodeF with any sufficient fuel computes parseNode. -/
theorem parseNodeF_agrees (node : CmdNode) (toks : List String) (fuel : Nat) (h : toks.length < fuel) :
    parseNodeF fuel node toks = some (parseNode node toks) := by
  have hi := loopF_fuel_irrel fuel (toks.length + 1) node (initSlots node.args) toks h (by omega)
  have hs := loopF_isSome (toks.length + 1) node (initSlots node.args) toks (by omega)
  unfold parseNode parseNodeF
  rw [hi]
  cases hr : loopF (toks.length + 1) node (initSlots node.args) toks with
  | none => rw [hr] at hs; simp at hs
  | some r => simp

/-- At a subcommand-bearing node, a loop iteration whose head token
matches neither a child name nor an option name fails with
UnknownOption (the clean no-match path of the variant specializations). -/
theorem loopF_unknown_token (fuel : Nat) (node : CmdNode) (slots : List (Option Val)) (t : String) (rest : List String)
    (hne : node.subs ≠ []) (hsub : ∀ c ∈ node.subs, c.name ≠ t) (harg : ∀ a ∈ node.args, a.name ≠ t) :
    loopF (fuel + 1) node slots (t :: rest) = some (.res (.error (.unknownOption t))) := by
  simp only [loopF]
  rw [findNamed_eq_none CmdNode.name node.subs t hsub]
  dsimp only
  rw [findNamed_eq_none Arg.name node.args t harg]
  dsimp only
  cases hss : node.subs with
  | nil => exact absurd hss hne
  | cons c cs => rfl

/-- At a childless node, a loop iteration whose head token matches no
option name reaches the null dereference in ControlFlow::to_break
before is_continue is consulted: undefined behavior, no returned error. -/
theorem loopF_unknown_ub (fuel : Nat) (node : CmdNode) (slots : List (Option Val)) (t : String) (rest : List String)
    (hnil : node.subs = []) (harg : ∀ a ∈ node.args, a.name ≠ t) :
    loopF (fuel + 1) node slots (t :: rest) = some EngineRes.ub := by
  simp only [loopF, hnil]
  dsimp only [findNamed]
  rw [findNamed_eq_none Arg.name node.args t harg]

/-- Parse-level form of loopF_unknown_token for a leading unknown token
at a subcommand-bearing node. -/
theorem parseNode_unknown_head (node : CmdNode) (t : String) (rest : List String)
    (hne : node.subs ≠ []) (hsub : ∀ c ∈ node.subs, c.name ≠ t) (harg : ∀ a ∈ node.args, a.name ≠ t) :
    parseNode node (t :: rest) = .res (.error (.unknownOption t)) := by
  unfold parseNode parseNodeF
  rw [show loopF ((t :: rest).length + 1) node (initSlots node.args) (t :: rest)
        = some (.res (.error (.unknownOption t)))
      from loopF_unknown_token (rest.length + 1) node (initSlots node.args) t rest hne hsub harg]
  rfl

/-- Parse-level form of loopF_unknown_ub for a leading unknown token at
a childless node. -/
theorem parseNode_unknown_head_ub (node : CmdNode) (t : String) (rest : List String)
    (hnil : node.subs = []) (harg : ∀ a ∈ node.args, a.name ≠ t) :
    parseNode node (t :: rest) = EngineRes.ub := by
  unfold parseNode parseNodeF
  rw [show loopF ((t :: rest).length + 1) node (initSlots node.args) (t :: rest)
        = some EngineRes.ub
      from loopF_unknown_ub (rest.length + 1) node (initSlots node.args) t rest hnil harg]
  rfl

/-- When no token of the cursor bears a child subcommand's name, the loop
leaves the selection cell unset. -/
theorem loopF_no_sub_match : ∀ (fuel : Nat) (node : CmdNode) (slots : List (Option Val)) (toks : List String),
    (∀ t ∈ toks, findNamed CmdNode.name node.subs t = none) →
    ∀ cell slots2 rem, loopF fuel node slots toks = some (.res (.ok (cell, slots2, rem))) → cell = none := by
  intro fuel
  induction fuel with
  | zero =>
    intro node slots toks h cell slots2 rem hl
    exact absurd hl (by simp [loopF])
  | succ n ih =>
    intro node slots toks h cell slots2 rem hl
    match toks with
    | [] =>
      simp only [loopF] at hl
      injection hl with hl
      injection hl with hl
      injection hl with hl
      exact (Prod.mk.injArrow hl.symm fun h1 _ => h1)
    | t :: rest =>
      have hfs : findNamed CmdNode.name node.subs t = none := h t (by simp)
      simp only [loopF, hfs] at hl
      cases hfa : findNamed Arg.name node.args t with
      | none =>
        rw [hfa] at hl
        cases hss : node.subs with
        | nil => rw [hss] at hl; simp at hl
        | cons c cs => rw [hss] at hl; simp at hl
      | some ja =>
        obtain ⟨j, a⟩ := ja
        rw [hfa] at hl
        dsimp only at hl
        cases hp : a.parse rest with
        | error e => rw [hp] at hl; simp at hl
        | ok vr =>
          obtain ⟨v, rest'⟩ := vr
          rw [hp] at hl
          dsimp only at hl
          have hmem : ∀ u ∈ rest', u ∈ t :: rest := by
            rcases Arg.parse_ok_rem a rest v rest' hp with hr | hr
            · subst hr; intro u hu; exact List.mem_cons_of_mem _ hu
            · subst hr; intro u hu
              exact List.mem_cons_of_mem _ ((List.tail_sublist rest).subset hu)
          exact ih node (slots.set j (some v)) rest' (fun u hu => h u (hmem u hu)) cell slots2 rem hl

/-! Claim theorems. -/

/-- C1 (evidence for the code bug): on the command.h engine the claim
that supplying an option name twice in one node fails with
DuplicateOption fails.  On a node with the single string option named
double-dash-str, the token list of the repository's own cmd_failure_test
makes Cmd::parse succeed with the second value stored (last wins): the
option-matching loop overwrites an already-set slot without any check,
and the DuplicateArg variant is never produced.  The earlier ArgParser
iteration in arg_parser.h does perform the already-set check and fails
with its DuplicateSelctionErr carrying the first stored value. -/
theorem c1_duplicate_last_wins :
    parseNode dupCmd ["--str", "s", "--str", "t"] = .res (.ok (ParseOut.mk none [Val.str "t"])) ∧
    dupAP.parse ["--str", "s", "--str", "t"] = .error (.duplicateSelctionErr "--str" (some "s")) :=
  ⟨rfl, rfl⟩

/-- C2 (evidence for the code bug): the claim that omitting a
required-with-no-default option fails with RequiredOption carrying the
option's name fails on the source.  The ArgParser iteration, the only
one in which required can be declared, fails after the matching loop and
the default-filling pass with NotEnoughArguments carrying an empty name
list (the source leaves the list empty with a comment marking it as
temporary); the command.h engine has no required concept at all and
zero-fills the unset slot, succeeding, and its RequiredOption variant is
never produced. -/
theorem c2_required_not_enforced :
    reqAP.parse [] = .error (.notEnoughArguments []) ∧
    parseNode countCmd [] = .res (.ok (ParseOut.mk none [Val.int 0])) :=
  ⟨rfl, rfl⟩

/-- C3 counterexample: the reserved help token gets no special handling
and ShowHelp is never produced.  On a subcommand-bearing node (one child
named sub, one flag option double-dash-foo), parsing the single token
double-dash-help takes the clean no-match path and fails with
UnknownOption carrying that token, not with ShowHelp; on a childless
node the same token reaches the null dereference in
ControlFlow::to_break (undefined behavior), again not ShowHelp. -/
theorem c3_help_counterexample :
    parseNode subParent ["--help"] = .res (.error (.unknownOption "--help")) ∧
    parseNode subParent ["--help"] ≠ .res (.error .showHelp) ∧
    parseNode fooCmd ["--help"] = EngineRes.ub ∧
    parseNode fooCmd ["--help"] ≠ .res (.error .showHelp) := by
  refine ⟨rfl, ?_, rfl, ?_⟩
  · intro h
    rw [show parseNode subParent ["--help"]
          = EngineRes.res (Except.error (ParseError.unknownOption "--help")) from rfl] at h
    have h2 := EngineRes.res.inj h
    have h3 := Except.error.inj h2
    exact absurd h3 (by decide)
  · intro h
    rw [show parseNode fooCmd ["--help"] = EngineRes.ub from rfl] at h
    exact EngineRes.noConfusion h

/-- C3 amended: the token double-dash-help receives no special handling
and ShowHelp (declared with no payload) is never produced.  At a
subcommand-bearing node where it matches no declared child or option
name, resolution fails with UnknownOption carrying it (at any loop
position, and for parse when it is the leading token); at a childless
node the unmatched token instead reaches the null dereference in
ControlFlow::to_break before is_continue is consulted — undefined
behavior, not a ShowHelp result. -/
theorem c3_help_amended (fuel : Nat) (node : CmdNode) (slots : List (Option Val)) (rest : List String)
    (hsub : ∀ c ∈ node.subs, c.name ≠ "--help") (harg : ∀ a ∈ node.args, a.name ≠ "--help") :
    (node.subs ≠ [] →
      loopF (fuel + 1) node slots ("--help" :: rest) = some (.res (.error (.unknownOption "--help"))) ∧
      parseNode node ("--help" :: rest) = .res (.error (.unknownOption "--help"))) ∧
    (node.subs = [] →
      loopF (fuel + 1) node slots ("--help" :: rest) = some EngineRes.ub ∧
      parseNode node ("--help" :: rest) = EngineRes.ub) :=
  ⟨fun hne =>
    ⟨loopF_unknown_token fuel node slots "--help" rest hne hsub harg,
     parseNode_unknown_head node "--help" rest hne hsub harg⟩,
   fun hnil =>
    ⟨loopF_unknown_ub fuel node slots "--help" rest hnil harg,
     parseNode_unknown_head_ub node "--help" rest hnil harg⟩⟩

/-- Witness for C3 amended at a concrete subcommand-bearing node. -/
theorem c3_help_amended_witness :
    parseNode subParent ["--help"] = .res (.error (.unknownOption "--help")) :=
  ((c3_help_amended 0 subParent [] []
    (by intro c hc; simp [subParent, CmdNode.subs] at hc; subst hc; decide)
    (by intro a ha; simp [subParent, CmdNode.args] at ha; subst ha; decide)).1
    (List.cons_ne_nil subChild [])).2

/-- C4: resolving the presence of a boolean-flag option consumes no
following token; with an explicitly declared bool constant default the
logical negation of that default is returned (a declared default of true
yields false), and with no declared default true is returned. -/
theorem c4_flag_toggle (a : Arg) (toks : List String) (h : a.vtype = VType.bool) :
    (∀ b : Bool, a.dflt = DefaultSpec.const (Val.bool b) → a.parse toks = .ok (Val.bool (!b), toks)) ∧
    (a.dflt = DefaultSpec.blank → a.parse toks = .ok (Val.bool true, toks)) := by
  rcases a with ⟨nm, vt, df, ps⟩
  have h' : vt = VType.bool := h
  subst h'
  constructor
  · intro b hb
    have hb' : df = DefaultSpec.const (Val.bool b) := hb
    subst hb'
    rfl
  · intro hb
    have hb' : df = DefaultSpec.blank := hb
    subst hb'
    rfl

/-- Witness for C4 with a declared default of true: presence yields false
and the cursor is untouched. -/
theorem c4_flag_toggle_witness :
    toggleArg.parse ["x"] = .ok (Val.bool false, ["x"]) :=
  (c4_flag_toggle toggleArg ["x"] rfl).1 true rfl

/-- C5: a non-flag option with an exhausted cursor fails with
NoValueGivenForOption (the MissingOptionValue of the specification)
consuming nothing; otherwise exactly one token is consumed (never more)
and the parser is applied to it: a plain return value succeeds, an
absent optional fails with ConverterConvertionError over the option name
and the raw token, and the error of an expected return is passed through
verbatim. -/
theorem c5_value_option (a : Arg) (h : a.vtype ≠ VType.bool) :
    (a.parse [] = .error (.noValueGivenForOption a.name)) ∧
    (∀ t rest,
      (∀ f, a.parser = ParserSpec.plain f → a.parse (t :: rest) = .ok (f t, rest)) ∧
      (∀ f v, a.parser = ParserSpec.opt f → f t = some v → a.parse (t :: rest) = .ok (v, rest)) ∧
      (∀ f, a.parser = ParserSpec.opt f → f t = none →
        a.parse (t :: rest) = .error (.converterConvertionError a.name t)) ∧
      (∀ f v, a.parser = ParserSpec.exc f → f t = .ok v → a.parse (t :: rest) = .ok (v, rest)) ∧
      (∀ f e, a.parser = ParserSpec.exc f → f t = .error e → a.parse (t :: rest) = .error e) ∧
      (∀ v rem, a.parse (t :: rest) = .ok (v, rem) → rem = rest)) := by
  rcases a with ⟨nm, vt, df, ps⟩
  cases vt
  case bool => exact absurd rfl h
  all_goals
    refine ⟨rfl, ?_⟩
    intro t rest
    refine ⟨?_, ?_, ?_, ?_, ?_, ?_⟩
    · intro f hf
      have hf' : ps = ParserSpec.plain f := hf
      subst hf'
      rfl
    · intro f v hf hft
      have hf' : ps = ParserSpec.opt f := hf
      subst hf'
      simp [Arg.parse, Arg.parseValueArm, hft]
    · intro f hf hft
      have hf' : ps = ParserSpec.opt f := hf
      subst hf'
      simp [Arg.parse, Arg.parseValueArm, hft]
    · intro f v hf hft
      have hf' : ps = ParserSpec.exc f := hf
      subst hf'
      simp [Arg.parse, Arg.parseValueArm, hft]
    · intro f e hf hft
      have hf' : ps = ParserSpec.exc f := hf
      subst hf'
      simp [Arg.parse, Arg.parseValueArm, hft]
    · intro v rem hok
      simp only [Arg.parse, Arg.parseValueArm] at hok
      repeat' split at hok
      all_goals simp_all

/-- Witness for C5 with an optional-returning parser that signals
absence: the conversion error carries the name and the raw token. -/
theorem c5_value_option_witness :
    optArg.parse ["v"] = .error (.converterConvertionError "--n" "v") :=
  ((c5_value_option optArg (by decide)).2 "v" []).2.2.1 convNone rfl rfl

/-- C6: at a node with child subcommands, a token equal to a child's
name (first match in declaration order, here made explicit by splitting
the child list) is consumed and that child's parse is invoked on the
remaining cursor; a child failure is returned immediately with no retry,
and a child success records the tagged selection and stops the node's
matching permanently with nothing left over (the child's own loop runs
to the sentinel).  A loop result that did leave tokens behind would make
the node fail with UnknownOption on the first such token (the post-loop
check of Cmd::parse), so there is no return to parent options after a
subcommand. -/
theorem c6_subcommand_dispatch (fuel : Nat) (node : CmdNode) (slots : List (Option Val))
    (t : String) (rest : List String) (pre post : List CmdNode) (child : CmdNode)
    (hsubs : node.subs = pre ++ child :: post)
    (hpre : ∀ c ∈ pre, c.name ≠ t)
    (hname : child.name = t)
    (hfuel : rest.length < fuel) :
    (∀ e, parseNode child rest = .res (.error e) →
      loopF (fuel + 1) node slots (t :: rest) = some (.res (.error e))) ∧
    (∀ out, parseNode child rest = .res (.ok out) →
      loopF (fuel + 1) node slots (t :: rest) = some (.res (.ok (some (some (pre.length, out)), slots, [])))) ∧
    (∀ cell slots2 u us,
      finishNode node (.ok (cell, slots2, u :: us)) = .error (.unknownOption u)) := by
  have hfind : findNamed CmdNode.name node.subs t = some (pre.length, child) := by
    rw [hsubs]
    exact findNamed_append CmdNode.name pre post child t hpre hname
  have hmap : Option.map (EngineRes.lift (finishNode child)) (loopF fuel child (initSlots child.args) rest)
      = some (parseNode child rest) := by
    rw [loopF_fuel_irrel fuel (rest.length + 1) child (initSlots child.args) rest hfuel (by omega)]
    exact parseNodeF_agrees child rest (rest.length + 1) (by omega)
  refine ⟨?_, ?_, ?_⟩
  · intro e he
    simp only [loopF, hfind]
    rw [hmap, he]
  · intro out hout
    simp only [loopF, hfind]
    rw [hmap, hout]
  · intro cell slots2 u us
    rfl

/-- Witness for C6 on a concrete two-level tree: the child name is
consumed, the child resolves the rest, and the selection is recorded. -/
theorem c6_subcommand_dispatch_witness :
    loopF 3 subParent [none] ["sub", "--bar"]
      = some (.res (.ok (some (some (0, ParseOut.mk none [Val.bool true])), [none], []))) :=
  ((c6_subcommand_dispatch 2 subParent [none] "sub" ["--bar"] [] [] subChild rfl
      (by intro c hc; simp at hc) rfl (by decide)).2.1)
    (ParseOut.mk none [Val.bool true]) rfl

/-- C7: when parse succeeds and no token of the cursor bears a child
subcommand's name, the subcommand-selection component of the result is
the explicit none tag (the monostate alternative at index 0 of the
selection variant, modelled by the outer none); the build step never
leaves the selection unset, emplacing the none tag when the loop did not
select. -/
theorem c7_selection_default (node : CmdNode) (toks : List String) (out : ParseOut)
    (hno : ∀ t ∈ toks, findNamed CmdNode.name node.subs t = none)
    (hok : parseNode node toks = .res (.ok out)) : out.sub = none := by
  unfold parseNode parseNodeF at hok
  cases hl : loopF (toks.length + 1) node (initSlots node.args) toks with
  | none => rw [hl] at hok; simp at hok
  | some er =>
    rw [hl] at hok
    simp only [Option.map_some', Option.getD_some] at hok
    cases er with
    | ub =>
      exact EngineRes.noConfusion
        (show EngineRes.ub = EngineRes.res (Except.ok out) from hok)
    | res r =>
      simp only [EngineRes.lift] at hok
      injection hok with hok
      cases r with
      | error e => simp [finishNode] at hok
      | ok state =>
        obtain ⟨cell, slots2, rem⟩ := state
        have hcell : cell = none :=
          loopF_no_sub_match (toks.length + 1) node (initSlots node.args) toks hno cell slots2 rem hl
        subst hcell
        unfold finishNode at hok
        dsimp only at hok
        cases rem with
        | cons u us => simp at hok
        | nil =>
          dsimp only at hok
          cases hfa : fillAll node.args slots2 with
          | error e => rw [hfa] at hok; simp at hok
          | ok vals =>
            rw [hfa] at hok
            dsimp only at hok
            injection hok with h2
            subst h2
            rfl

/-- Witness for C7 on a node with a child whose name never occurs. -/
theorem c7_selection_default_witness :
    parseNode subParent ["--foo"] = .res (.ok (ParseOut.mk none [Val.bool true])) ∧
    (ParseOut.mk none [Val.bool true]).sub = none :=
  ⟨rfl, c7_selection_default subParent ["--foo"] (ParseOut.mk none [Val.bool true])
    (by intro t ht; rw [List.mem_singleton] at ht; subst ht; rfl) rfl⟩

/-- C8 counterexample: the claim fails at a childless node.  On a node
declaring only the flag option double-dash-foo and no subcommands,
parsing the unmatched token double-dash-bar does not return
UnknownOption: the childless Cmd::parse evaluates res.to_break — a
dereference of the null std::get_if over the Break alternative of a
Continue-holding ControlFlow — before is_continue is consulted, reaching
undefined behavior. -/
theorem c8_unknown_counterexample :
    parseNode fooCmd ["--bar"] = EngineRes.ub ∧
    parseNode fooCmd ["--bar"] ≠ .res (.error (.unknownOption "--bar")) := by
  refine ⟨rfl, ?_⟩
  intro h
  rw [show parseNode fooCmd ["--bar"] = EngineRes.ub from rfl] at h
  exact EngineRes.noConfusion h

/-- C8 amended: at any loop position of a subcommand-bearing node whose
current token equals neither a declared child subcommand name nor a
declared option name, the parse fails with UnknownOption carrying
exactly that token (and so does parse of a cursor led by such a token);
at a childless node the unmatched token instead reaches the null
dereference in ControlFlow::to_break before is_continue is consulted —
undefined behavior, with no UnknownOption returned. -/
theorem c8_unknown_token (fuel : Nat) (node : CmdNode) (slots : List (Option Val))
    (t : String) (rest : List String)
    (hsub : ∀ c ∈ node.subs, c.name ≠ t) (harg : ∀ a ∈ node.args, a.name ≠ t) :
    (node.subs ≠ [] →
      loopF (fuel + 1) node slots (t :: rest) = some (.res (.error (.unknownOption t))) ∧
      parseNode node (t :: rest) = .res (.error (.unknownOption t))) ∧
    (node.subs = [] →
      loopF (fuel + 1) node slots (t :: rest) = some EngineRes.ub ∧
      parseNode node (t :: rest) = EngineRes.ub) :=
  ⟨fun hne =>
    ⟨loopF_unknown_token fuel node slots t rest hne hsub harg,
     parseNode_unknown_head node t rest hne hsub harg⟩,
   fun hnil =>
    ⟨loopF_unknown_ub fuel node slots t rest hnil harg,
     parseNode_unknown_head_ub node t rest hnil harg⟩⟩

/-- Witness for C8 amended at a concrete subcommand-bearing node and a
concrete childless node. -/
theorem c8_unknown_token_witness :
    parseNode subParent ["--bar"] = .res (.error (.unknownOption "--bar")) ∧
    parseNode countCmd ["--bar"] = EngineRes.ub :=
  ⟨((c8_unknown_token 0 subParent [] "--bar" []
      (by intro c hc; simp [subParent, CmdNode.subs] at hc; subst hc; decide)
      (by intro a ha; simp [subParent, CmdNode.args] at ha; subst ha; decide)).1
      (List.cons_ne_nil subChild [])).2,
   ((c8_unknown_token 0 countCmd [] "--bar" []
      (by intro c hc; simp [countCmd, CmdNode.subs] at hc)
      (by intro a ha; simp [countCmd, CmdNode.args] at ha; subst ha; decide)).2 rfl).2⟩

/-- C9: parse terminates with a value or an error in bounded steps:
with any fuel exceeding the token count, the fuel-indexed engine (one
fuel unit per loop iteration, each iteration consuming at least one
token, and each subcommand recursion entered on a strictly shorter
cursor) never exhausts its fuel and computes parseNode. -/
theorem c9_parse_bounded (node : CmdNode) (toks : List String) (fuel : Nat)
    (h : toks.length < fuel) :
    parseNodeF fuel node toks = some (parseNode node toks) :=
  parseNodeF_agrees node toks fuel h

/-- Witness for C9 at a concrete node, token list and fuel. -/
theorem c9_parse_bounded_witness :
    (["--foo"] : List String).length < 5 ∧
    parseNodeF 5 fooCmd ["--foo"] = some (parseNode fooCmd ["--foo"]) :=
  ⟨by decide, c9_parse_bounded fooCmd ["--foo"] 5 (by decide)⟩

/-- C10: an Arg written with only a name (value type, default and parser
all still blank), added to a node via add, is converted into a bool flag
option: the node's option list gains the bool-typed Arg, its presence
consumes no following token and yields true, and its absence is filled
by default construction to false. -/
theorem c10_blank_arg_becomes_flag (node : CmdNode) (nm : String) :
    (node.add (RawArg.mk nm none DefaultSpec.blank ParserSpec.blank)).args
      = node.args ++ [Arg.mk nm VType.bool DefaultSpec.blank ParserSpec.blank] ∧
    (∀ toks, (Arg.mk nm VType.bool DefaultSpec.blank ParserSpec.blank).parse toks
      = .ok (Val.bool true, toks)) ∧
    (Arg.mk nm VType.bool DefaultSpec.blank ParserSpec.blank).fill none = .ok (Val.bool false) :=
  ⟨rfl, fun _ => rfl, rfl⟩

end Col
